import Mathlib

/-!
# libctf: opening CTF files (ctf-open-bfd.c) and simple subroutines (ctf-subr.c)

A shallow embedding of `ctf_version`, `ctf_pread`, `ctf_new_archive_internal`,
`ctf_bfdopen`, `ctf_bfdopen_ctfsect` and `ctf_fdopen`.

The calls made by ctf-open-bfd.c to libc, to BFD, to the CTF decoder and to the
raw data access layer (`ctf_pread`, `ctf_mmap`, `ctf_munmap`) are answered by a
`World`: a record holding the result of every such call site.  The functions
thread a `Run` that collects the ordered list of these calls (the trace) and
the value last stored through `errp`.  `ctf_pread` itself is embedded apart,
over a file and a schedule of `pread` results.  `libctf_init_debug` and
`ctf_dprintf` only touch the debug flag and the diagnostic stream and are left
out.
-/

namespace Libctf

/-! ## Constants -/

/-- Constants of the libctf headers `ctf.h` and `ctf-api.h` (macros and enum
members used by the two source files but declared elsewhere). -/
structure Consts where
  CTF_MAGIC : Nat
  CTF_VERSION : Int
  CTFA_MAGIC : Nat
  sizeof_ctf_preamble_t : Nat
  ECTF_FMT : Int
  ECTF_BFD_AMBIGUOUS : Int
  ECTF_CTFVERS : Int
  ECTF_NOCTFDATA : Int
deriving DecidableEq, Repr

/-- A concrete choice of the constants, with `ECTF_BASE` 1000 and the CTF
version 4, used by the sample inputs. -/
def libctfConsts : Consts :=
  { CTF_MAGIC := 0xdff2
    CTF_VERSION := 4
    CTFA_MAGIC := 0x8b47f2a4d7623eeb
    sizeof_ctf_preamble_t := 4
    ECTF_FMT := 1000
    ECTF_BFD_AMBIGUOUS := 1003
    ECTF_CTFVERS := 1002
    ECTF_NOCTFDATA := 1008 }

/-- The `EINTR` of `<errno.h>`. -/
def EINTR : Int := 4
/-- The `EINVAL` of `<errno.h>`. -/
def EINVAL : Int := 22
/-- The `ENOTSUP` of `<errno.h>`. -/
def ENOTSUP : Int := 95
/-- The `SHN_UNDEF` of `<elf.h>`. -/
def SHN_UNDEF : Nat := 0
/-- The C `sizeof (uint64_t)`. -/
def sizeof_uint64_t : Nat := 8

/-! ## ctf-subr.c: `ctf_version` -/

/-- The globals `ctf_version` reads and writes: `_libctf_version` and `errno`. -/
structure LibState where
  _libctf_version : Int
  errno : Int
deriving DecidableEq, Repr

/-- The initial library state: `int _libctf_version = CTF_VERSION;`. -/
def LibState.initial (K : Consts) (errno : Int) : LibState :=
  { _libctf_version := K.CTF_VERSION, errno := errno }

/-- The function `ctf_version` of ctf-subr.c: the returned `int` and the state
it leaves. -/
def ctf_version (K : Consts) (s : LibState) (version : Int) : Int × LibState :=
  if version < 0 then
    (-1, { s with errno := EINVAL })
  else
    if version > 0 then
      if version ≠ K.CTF_VERSION then
        (-1, { s with errno := ENOTSUP })
      else
        let s1 := { s with _libctf_version := version }
        (s1._libctf_version, s1)
    else
      (s._libctf_version, s)

/-- States reachable from the initial one: `ctf_version` is the only writer of
`_libctf_version`; any other code may change `errno`. -/
inductive Reachable (K : Consts) : LibState → Prop
  | init (e : Int) : Reachable K (LibState.initial K e)
  | call (s : LibState) (v : Int) : Reachable K s → Reachable K (ctf_version K s v).2
  | setErrno (s : LibState) (e : Int) : Reachable K s → Reachable K { s with errno := e }

/-! ## ctf-subr.c: `ctf_pread` (the `HAVE_PREAD` branch) -/

/-- What one call of the underlying `pread` does: fail with an `errno`, or
(try to) transfer `k` bytes. -/
inductive PreadChoice
  | fail (errno : Int)
  | xfer (k : Nat)
deriving DecidableEq, Repr

/-- One call `pread (fd, data, count, offset)` on a file holding `file`, with
`errno` zero on entry: the returned length, the `errno` left, and the bytes
stored at `data`.  A failing call transfers nothing and returns -1, and so
does a call with a negative offset (`EINVAL`).  A call at or past the end of
the file returns 0.  Otherwise between 1 and
`min count (length - offset)` bytes are transferred: the requested `k` is
brought into that range, so every `k` inside it is transferred as is. -/
def pread (file : List Nat) (c : PreadChoice) (count offset : Int) :
    Int × Int × List Nat :=
  match c with
  | .fail e => (-1, e, [])
  | .xfer k =>
    if offset < 0 then (-1, EINVAL, [])
    else if offset ≥ file.length then (0, 0, [])
    else
      let n : Int := min (max (k : Int) 1) (min count ((file.length : Int) - offset))
      (n, 0, (file.drop offset.toNat).take n.toNat)

/-- The loop `while (count > 0) { ... }` of `ctf_pread`, the `i`-th call of
`pread` being answered by `sched i`.  `buf` holds the bytes stored so far at
`buf[0 .. data - buf)`.  Returns `none` when `fuel` iterations were not
enough, and otherwise the returned `ssize_t` and the bytes stored.  `acc`
never exceeds the initial `count`, and `offset` grows by what was read, so no
machine integer wraps and the values are kept as integers. -/
def ctf_pread_loop (file : List Nat) (sched : Nat → PreadChoice) :
    (fuel : Nat) → (i : Nat) → (count offset acc : Int) → (buf : List Nat) →
    Option (Int × List Nat)
  | 0, _, _, _, _, _ => none
  | fuel + 1, i, count, offset, acc, buf =>
    if count > 0 then
      match pread file (sched i) count offset with
      | (len, errno, bytes) =>
        if len < 0 ∧ errno ≠ EINTR then some (len, buf)
        else if errno = EINTR then
          ctf_pread_loop file sched fuel (i + 1) count offset acc buf
        else
          let acc1 := acc + len
          if len = 0 then some (acc1, buf ++ bytes)
          else
            ctf_pread_loop file sched fuel (i + 1) (count - len) (offset + len) acc1
              (buf ++ bytes)
    else some (acc, buf)

/-- The function `ctf_pread` of ctf-subr.c (with `HAVE_PREAD`): `acc = 0`,
`data = buf`, then the loop. -/
def ctf_pread (file : List Nat) (sched : Nat → PreadChoice) (fuel : Nat)
    (count offset : Int) : Option (Int × List Nat) :=
  ctf_pread_loop file sched fuel 0 count offset 0 []

/-- The slice `[offset, offset + n)` of a file. -/
def fileSlice (file : List Nat) (offset n : Int) : List Nat :=
  (file.drop offset.toNat).take n.toNat

/-- The byte count the claim promises: `min (count, max (0, L - offset))`. -/
def preadExpected (file : List Nat) (count offset : Int) : Int :=
  min count (max 0 ((file.length : Int) - offset))

/-! ## ctf-open-bfd.c: data -/

/-- The three section buffers `bfd_malloc_and_get_section` can hand out. -/
inductive Sec
  | ctf
  | sym
  | str
deriving DecidableEq, Repr

/-- A pointer value passed to `free`: null, an uninitialised local, or one of
the section buffers. -/
inductive Ptr
  | null
  | uninit
  | buf (s : Sec)
deriving DecidableEq, Repr

/-- The calls that leave the source file, with the arguments and results the
properties below talk about, plus the two memory accesses that can go wrong:
a store to a field of `*fp` and an index into `elf_elfsections (abfd)`. -/
inductive Event
  | fstat (fd : Int)
  | ctf_pread (fd : Int) (count offset : Nat)
  | ctf_mmap (fd : Int) (length : Nat) (ok : Bool)
  | ctf_munmap
  | ctf_simple_open (ok : Bool)
  | store_fp (fpNull : Bool)
  | calloc (ok : Bool)
  | ctf_file_close (mapped : Bool)
  | ctf_arc_close_internal
  | ctf_arc_open_internal (ok : Bool)
  | dup (fd nfd : Int)
  | bfd_fdopenr (nfd : Int) (ok : Bool)
  | bfd_check_format (ok : Bool)
  | bfd_close_all_done (nfd : Int)
  | bfd_get_section_by_name (ok : Bool)
  | bfd_malloc_and_get_section (s : Sec) (ok : Bool)
  | free (p : Ptr)
  | bfd_section_from_elf_index (i : Nat)
  | elf_elfsections_index (i : Nat)
  | ctf_arc_bufopen (ok : Bool)
  | ctf_bufopen (ok : Bool)
deriving DecidableEq, Repr

/-- The `cts_name` of a section descriptor: a string literal, or a pointer
`strsect.cts_data + off` into the string table. -/
inductive SectName
  | literal (s : String)
  | strtab (off : Nat)
deriving DecidableEq, Repr

/-- Modelled from the spec: the Section Descriptor `ctf_sect_t` (declared in
ctf-api.h, not under src/): name, entry size, total size, data.  `cts_data` is
the content of the buffer the pointer designates. -/
structure ctf_sect_t where
  cts_name : SectName
  cts_entsize : Nat
  cts_size : Nat
  cts_data : List Nat
deriving DecidableEq, Repr

/-- The fields of `Elf_Internal_Shdr` the code reads. -/
structure Elf_Internal_Shdr where
  sh_name : Nat
  sh_size : Nat
  sh_link : Nat
deriving DecidableEq, Repr

/-- The fields of a decoded container `ctf_file_t` the code writes. -/
structure ctf_file_t where
  ctf_data_mmapped : Bool
  ctf_data_mmapped_len : Nat
deriving DecidableEq, Repr

/-- A parsed `struct ctf_archive`: opaque here. -/
structure ctf_archive where
  id : Nat
deriving DecidableEq, Repr

/-- Modelled from the spec: the Unified Archive Handle
`struct ctf_archive_internal` (declared in ctf-impl.h, not under src/): the
tag, the two payload pointers, the copies of the symbol-table and string-table
descriptors (`none` is the all-zero struct `calloc` leaves), the section data
to free, the object-file reader handle (named by its descriptor) and whether a
close callback is bound. -/
structure ctf_archive_internal where
  ctfi_is_archive : Bool
  ctfi_archive : Option ctf_archive
  ctfi_file : Option ctf_file_t
  ctfi_symsect : Option ctf_sect_t
  ctfi_strsect : Option ctf_sect_t
  ctfi_data : Option Ptr
  ctfi_abfd : Option Int
  ctfi_bfd_close : Bool
deriving DecidableEq, Repr

/-- What a call comes to: a handle, a null pointer, or no return at all
because the code stored through a null pointer or read outside an array. -/
inductive Outcome
  | handle (h : ctf_archive_internal)
  | null
  | fault
deriving DecidableEq, Repr

/-- The ordered external calls made so far and the value last stored in
`*errp`. -/
structure Run where
  trace : List Event
  errp : Int
deriving DecidableEq, Repr

/-- A run with nothing done yet and `*errp` holding `e`. -/
def Run.start (e : Int) : Run := { trace := [], errp := e }

/-- Append one event to the trace. -/
def Run.emit (r : Run) (e : Event) : Run := { r with trace := r.trace ++ [e] }

/-- The result of every call site that leaves the source file. -/
structure World where
  /-- Whether `fstat (fd, &st) != -1`, the `errno` when it fails, and `st.st_size`. -/
  fstat_ok : Bool
  fstat_errno : Int
  st_size : Nat
  /-- The first `ctf_pread`: its result, `errno`, and the fields of `ctfhdr`
  after it. -/
  pread_hdr : Int
  pread_hdr_errno : Int
  ctp_magic : Nat
  ctp_version : Nat
  /-- Whether `ctf_mmap` returned non-null; `errno` otherwise. -/
  mmap_ok : Bool
  mmap_errno : Int
  /-- Whether `ctf_simple_open` returned non-null; the code it stores in `*errp`
  otherwise. -/
  simple_open_ok : Bool
  simple_open_err : Int
  /-- Whether `calloc` in `ctf_new_archive_internal` returned non-null; the `errno`
  read afterwards otherwise. -/
  calloc_ok : Bool
  calloc_errno : Int
  /-- The second `ctf_pread`: its result, `errno`, and `arc_magic` after it. -/
  pread_arc : Int
  pread_arc_errno : Int
  arc_magic : Nat
  /-- Whether `ctf_arc_open_internal` returned non-null; its `*errp` otherwise. -/
  arc_open_ok : Bool
  arc_open_err : Int
  /-- The value of `dup (fd)` and the `errno` when it is negative. -/
  dup_ret : Int
  dup_errno : Int
  /-- Whether `bfd_fdopenr` returned non-null. -/
  fdopenr_ok : Bool
  /-- The result of `bfd_check_format (abfd, bfd_object)`, and whether `bfd_get_error ()` is
  `bfd_error_file_ambiguously_recognized`. -/
  check_format_ok : Bool
  bfd_error_ambiguous : Bool
  /-- Whether `bfd_get_section_by_name (abfd, _CTF_SECTION)` returned non-null;
  `bfd_malloc_and_get_section` on it succeeded; its size and contents. -/
  ctf_section_found : Bool
  ctf_read_ok : Bool
  ctf_section_size : Nat
  ctf_contents : List Nat
  /-- The ELF data of the BFD: `elf_onesymtab`, `elf_symtab_hdr`,
  `elf_elfsections` (an array of `elf_numsections` headers), and for each
  index whether `bfd_section_from_elf_index` returns a section. -/
  elf_onesymtab : Nat
  elf_symtab_hdr : Elf_Internal_Shdr
  elf_elfsections : List Elf_Internal_Shdr
  section_from_elf_index : Nat → Bool
  /-- The two `bfd_malloc_and_get_section` calls on the tables, with the size
  and contents of each table. -/
  str_read_ok : Bool
  str_size : Nat
  str_contents : List Nat
  sym_read_ok : Bool
  sym_size : Nat
  sym_contents : List Nat
  /-- Whether `ctf_arc_bufopen` / `ctf_bufopen` returned non-null; `*errp` otherwise. -/
  arc_bufopen_ok : Bool
  arc_bufopen_err : Int
  bufopen_ok : Bool
  bufopen_err : Int

/-- The macro `elf_numsections (abfd)`: the number of entries of
`elf_elfsections (abfd)`. -/
def elf_numsections (w : World) : Nat := w.elf_elfsections.length

/-- The load `*(uint64_t *) p` on a little-endian host: the first eight bytes
at `p`, or `none` when fewer than eight bytes are there. -/
def load_uint64 (bytes : List Nat) : Option Nat :=
  if bytes.length < 8 then none
  else some ((bytes.take 8).foldr (fun b acc => b % 256 + 256 * acc) 0)

/-- Modelled from the spec: `ctf_set_open_errno` (defined outside src/): the
caller receives a null handle and the specific error code in `*errp`. -/
def ctf_set_open_errno (r : Run) (error : Int) : Outcome × Run :=
  (Outcome.null, { r with errp := error })

/-! ## ctf-open-bfd.c: functions -/

/-- Whether the container `fp` records a mapping (`ctf_data_mmapped`) for its
close to release. -/
def fpMapped (fp : Option ctf_file_t) : Bool :=
  match fp with
  | none => false
  | some f => f.ctf_data_mmapped

/-- The function `ctf_new_archive_internal`: when `calloc` fails, close `arc`
or `fp` and return null with `errno` in `*errp`; otherwise fill the zeroed
struct. -/
def ctf_new_archive_internal (w : World) (is_archive : Bool)
    (arc : Option ctf_archive) (fp : Option ctf_file_t)
    (symsect strsect : Option ctf_sect_t) (r : Run) : Outcome × Run :=
  if w.calloc_ok = false then
    let r := r.emit (.calloc false)
    let r :=
      if is_archive then r.emit .ctf_arc_close_internal
      else r.emit (.ctf_file_close (fpMapped fp))
    ctf_set_open_errno r w.calloc_errno
  else
    let r := r.emit (.calloc true)
    let arci : ctf_archive_internal :=
      { ctfi_is_archive := is_archive
        ctfi_archive := if is_archive then arc else none
        ctfi_file := if is_archive then none else fp
        ctfi_symsect := symsect
        ctfi_strsect := strsect
        ctfi_data := none
        ctfi_abfd := none
        ctfi_bfd_close := false }
    (Outcome.handle arci, r)

/-- The pointer `sect.cts_data` of a local descriptor: uninitialised until the
descriptor is filled in. -/
def localData (s : Sec) (sect : Option ctf_sect_t) : Ptr :=
  match sect with
  | none => Ptr.uninit
  | some _ => Ptr.buf s

/-- The label `err:` of `ctf_bfdopen_ctfsect`. -/
def ctfsect_err (K : Consts) (bfderrstr : Bool) (r : Run) : Outcome × Run :=
  if bfderrstr then ctf_set_open_errno r K.ECTF_FMT else (Outcome.null, r)

/-- The label `err_free_str:` of `ctf_bfdopen_ctfsect`. -/
def ctfsect_err_free_str (K : Consts) (strsect : Option ctf_sect_t)
    (bfderrstr : Bool) (r : Run) : Outcome × Run :=
  ctfsect_err K bfderrstr (r.emit (.free (localData .str strsect)))

/-- The label `err_free_sym:` of `ctf_bfdopen_ctfsect`. -/
def ctfsect_err_free_sym (K : Consts) (symsect strsect : Option ctf_sect_t)
    (bfderrstr : Bool) (r : Run) : Outcome × Run :=
  ctfsect_err_free_str K strsect bfderrstr (r.emit (.free (localData .sym symsect)))

/-- The test of line 178: `cts_size > sizeof (uint64_t)` and then, only then,
the load of the first eight bytes compared with `CTFA_MAGIC`.  `none` when the
load falls outside the buffer. -/
def ctfsect_is_archive (K : Consts) (ctfsect : ctf_sect_t) : Option Bool :=
  if ctfsect.cts_size > sizeof_uint64_t then
    match load_uint64 ctfsect.cts_data with
    | none => none
    | some m => some (decide (m = K.CTFA_MAGIC))
  else some false

/-- The part of `ctf_bfdopen_ctfsect` from the magic test on (lines 178-214),
entered with the local descriptors `symsect` and `strsect` as the ELF part left
them; `symsectp` and `strsectp` are null exactly when these are not filled. -/
def ctfsect_open (K : Consts) (w : World) (ctfsect : ctf_sect_t)
    (symsect strsect : Option ctf_sect_t) (r : Run) : Outcome × Run :=
  match ctfsect_is_archive K ctfsect with
  | none => (Outcome.fault, r)
  | some true =>
    let r := r.emit (.ctf_arc_bufopen w.arc_bufopen_ok)
    if w.arc_bufopen_ok = false then
      ctfsect_err_free_sym K symsect strsect false { r with errp := w.arc_bufopen_err }
    else
      let res := ctf_new_archive_internal w true (some ⟨0⟩) none symsect strsect r
      match res.1 with
      | Outcome.handle arci => (Outcome.handle arci, res.2)
      | _ => ctfsect_err_free_sym K symsect strsect false res.2
  | some false =>
    let r := r.emit (.ctf_bufopen w.bufopen_ok)
    if w.bufopen_ok = false then
      ctfsect_err_free_sym K symsect strsect false { r with errp := w.bufopen_err }
    else
      let res := ctf_new_archive_internal w false none (some ⟨false, 0⟩) symsect strsect r
      match res.1 with
      | Outcome.handle arci => (Outcome.handle arci, res.2)
      | _ => ctfsect_err_free_sym K symsect strsect false res.2

/-- The function `ctf_bfdopen_ctfsect`, with `HAVE_BFD_ELF`.  After a failed
`bfd_malloc_and_get_section` the pointer `contents` is null. -/
def ctf_bfdopen_ctfsect (K : Consts) (w : World) (ctfsect : ctf_sect_t) (r : Run) :
    Outcome × Run :=
  let r := r.emit (.bfd_section_from_elf_index w.elf_onesymtab)
  let sym_asect := w.section_from_elf_index w.elf_onesymtab
  if sym_asect then
    let symhdr := w.elf_symtab_hdr
    let guard := decide (symhdr.sh_link ≠ SHN_UNDEF ∧ symhdr.sh_link ≤ elf_numsections w)
    let r := if guard then r.emit (.bfd_section_from_elf_index symhdr.sh_link) else r
    let str_asect := if guard then w.section_from_elf_index symhdr.sh_link else false
    let r := r.emit (.elf_elfsections_index symhdr.sh_link)
    match w.elf_elfsections[symhdr.sh_link]? with
    | none => (Outcome.fault, r)
    | some strhdr =>
      if sym_asect && str_asect then
        let r := r.emit (.bfd_malloc_and_get_section .str w.str_read_ok)
        if w.str_read_ok = false then
          ctfsect_err K true (r.emit (.free Ptr.null))
        else
          let strsect : ctf_sect_t :=
            { cts_data := w.str_contents
              cts_name := .strtab strhdr.sh_name
              cts_size := w.str_size
              cts_entsize := strhdr.sh_size }
          let r := r.emit (.bfd_malloc_and_get_section .sym w.sym_read_ok)
          if w.sym_read_ok = false then
            ctfsect_err_free_str K (some strsect) true (r.emit (.free Ptr.null))
          else
            let symsect : ctf_sect_t :=
              { cts_name := .strtab symhdr.sh_name
                cts_entsize := symhdr.sh_size
                cts_size := w.sym_size
                cts_data := w.sym_contents }
            ctfsect_open K w ctfsect (some symsect) (some strsect) r
      else
        ctfsect_open K w ctfsect none none r
  else
    ctfsect_open K w ctfsect none none r

/-- The function `ctf_bfdopen`. -/
def ctf_bfdopen (K : Consts) (w : World) (r : Run) : Outcome × Run :=
  let r := r.emit (.bfd_get_section_by_name w.ctf_section_found)
  if w.ctf_section_found = false then
    ctf_set_open_errno r K.ECTF_NOCTFDATA
  else
    let r := r.emit (.bfd_malloc_and_get_section .ctf w.ctf_read_ok)
    if w.ctf_read_ok = false then
      ctf_set_open_errno r K.ECTF_FMT
    else
      let ctfsect : ctf_sect_t :=
        { cts_name := .literal ".ctf"
          cts_entsize := 1
          cts_size := w.ctf_section_size
          cts_data := w.ctf_contents }
      let res := ctf_bfdopen_ctfsect K w ctfsect r
      match res.1 with
      | Outcome.handle arc =>
        (Outcome.handle { arc with ctfi_data := some (Ptr.buf .ctf) }, res.2)
      | Outcome.null => (Outcome.null, res.2.emit (.free (Ptr.buf .ctf)))
      | Outcome.fault => (Outcome.fault, res.2)

/-- The raw-container branch of `ctf_fdopen` (lines 252-267), entered once the
preamble was recognised. -/
def ctf_fdopen_raw (K : Consts) (w : World) (fd : Int) (r : Run) : Outcome × Run :=
  if (w.ctp_version : Int) > K.CTF_VERSION then
    ctf_set_open_errno r K.ECTF_CTFVERS
  else
    let r := r.emit (.ctf_mmap fd w.st_size w.mmap_ok)
    if w.mmap_ok = false then
      ctf_set_open_errno r w.mmap_errno
    else
      let r := r.emit (.ctf_simple_open w.simple_open_ok)
      let fp : Option ctf_file_t := if w.simple_open_ok then some ⟨false, 0⟩ else none
      let r := if w.simple_open_ok then r else { r with errp := w.simple_open_err }
      let r := if fp = none then r.emit .ctf_munmap else r
      let r := r.emit (.store_fp (decide (fp = none)))
      match fp with
      | none => (Outcome.fault, r)
      | some f =>
        let f := { f with ctf_data_mmapped := true }
        let f := { f with ctf_data_mmapped_len := w.st_size }
        ctf_new_archive_internal w false none (some f) none none r

/-- The object-file branch of `ctf_fdopen` (lines 283-317). -/
def ctf_fdopen_bfd (K : Consts) (w : World) (fd : Int) (r : Run) : Outcome × Run :=
  let nfd := w.dup_ret
  let r := r.emit (.dup fd nfd)
  if nfd < 0 then
    ctf_set_open_errno r w.dup_errno
  else
    let r := r.emit (.bfd_fdopenr nfd w.fdopenr_ok)
    if w.fdopenr_ok = false then
      ctf_set_open_errno r K.ECTF_FMT
    else
      let r := r.emit (.bfd_check_format w.check_format_ok)
      if w.check_format_ok = false then
        if w.bfd_error_ambiguous then ctf_set_open_errno r K.ECTF_BFD_AMBIGUOUS
        else ctf_set_open_errno r K.ECTF_FMT
      else
        let res := ctf_bfdopen K w r
        match res.1 with
        | Outcome.handle arci =>
          (Outcome.handle { arci with ctfi_bfd_close := true, ctfi_abfd := some nfd }, res.2)
        | Outcome.null => (Outcome.null, res.2.emit (.bfd_close_all_done nfd))
        | Outcome.fault => (Outcome.fault, res.2)

/-- The function `ctf_fdopen`. -/
def ctf_fdopen (K : Consts) (w : World) (fd : Int) (r : Run) : Outcome × Run :=
  let r := r.emit (.fstat fd)
  if w.fstat_ok = false then
    ctf_set_open_errno r w.fstat_errno
  else
    let r := r.emit (.ctf_pread fd K.sizeof_ctf_preamble_t 0)
    let nbytes := w.pread_hdr
    if nbytes ≤ 0 then
      ctf_set_open_errno r (if nbytes < 0 then w.pread_hdr_errno else K.ECTF_FMT)
    else if nbytes.toNat ≥ K.sizeof_ctf_preamble_t ∧ w.ctp_magic = K.CTF_MAGIC then
      ctf_fdopen_raw K w fd r
    else
      let r := r.emit (.ctf_pread fd sizeof_uint64_t 0)
      let nbytes := w.pread_arc
      if nbytes ≤ 0 then
        ctf_set_open_errno r (if nbytes < 0 then w.pread_arc_errno else K.ECTF_FMT)
      else if nbytes.toNat ≥ sizeof_uint64_t ∧ w.arc_magic = K.CTFA_MAGIC then
        let r := r.emit (.ctf_arc_open_internal w.arc_open_ok)
        if w.arc_open_ok = false then
          (Outcome.null, { r with errp := w.arc_open_err })
        else
          ctf_new_archive_internal w true (some ⟨0⟩) none none none r
      else
        ctf_fdopen_bfd K w fd r

/-! ## Resource accounting and descriptor use over a trace -/

/-- The resources an open call acquires: the whole-file mapping, the duplicated
descriptor, the object-file reader handle, and the three section buffers. -/
inductive Res
  | mapping
  | dupfd
  | abfd
  | secbuf (s : Sec)
deriving DecidableEq, Repr

/-- Whether an event acquires a resource. -/
def Event.acquires (e : Event) (res : Res) : Bool :=
  match e, res with
  | .ctf_mmap _ _ true, .mapping => true
  | .dup _ nfd, .dupfd => decide (0 ≤ nfd)
  | .bfd_fdopenr _ true, .abfd => true
  | .bfd_malloc_and_get_section s true, .secbuf s1 => decide (s = s1)
  | _, _ => false

/-- Whether an event releases a resource.  Closing a container that records a
mapping unmaps it; the object-file reader owns the descriptor it is given, and
closes it when it fails to open and when it is closed. -/
def Event.releases (e : Event) (res : Res) : Bool :=
  match e, res with
  | .ctf_munmap, .mapping => true
  | .ctf_file_close true, .mapping => true
  | .bfd_fdopenr _ false, .dupfd => true
  | .bfd_close_all_done _, .dupfd => true
  | .bfd_close_all_done _, .abfd => true
  | .free (.buf s), .secbuf s1 => decide (s = s1)
  | _, _ => false

/-- How many times a trace acquires a resource. -/
def acquired (res : Res) (t : List Event) : Nat := t.countP (fun e => e.acquires res)

/-- How many times a trace releases a resource. -/
def released (res : Res) (t : List Event) : Nat := t.countP (fun e => e.releases res)

/-- The descriptor an event closes, if any. -/
def Event.closesFd (e : Event) : Option Int :=
  match e with
  | .bfd_fdopenr nfd false => some nfd
  | .bfd_close_all_done nfd => some nfd
  | _ => none

/-- The descriptor an event hands to the object-file reader, if any. -/
def Event.readerFd (e : Event) : Option Int :=
  match e with
  | .bfd_fdopenr nfd _ => some nfd
  | _ => none

/-- The handle invariant: exactly one payload, chosen by the tag, and the two
table descriptors both filled or both empty. -/
def ctf_archive_internal.wellFormed (h : ctf_archive_internal) : Prop :=
  (if h.ctfi_is_archive then h.ctfi_archive ≠ none ∧ h.ctfi_file = none
   else h.ctfi_file ≠ none ∧ h.ctfi_archive = none) ∧
  (h.ctfi_symsect.isSome = h.ctfi_strsect.isSome)

instance (h : ctf_archive_internal) : Decidable h.wellFormed := by
  unfold ctf_archive_internal.wellFormed
  infer_instance

/-- The handle invariant on whatever a call returns: it constrains handles
only. -/
def Outcome.wellFormed (o : Outcome) : Prop :=
  match o with
  | .handle h => h.wellFormed
  | .null => True
  | .fault => True

/-- An event that neither closes a descriptor nor hands one to the reader. -/
def Event.quiet (ev : Event) : Prop := ev.closesFd = none ∧ ev.readerFd = none

/-- An event that closes or hands to the reader no descriptor but `nfd`. -/
def Event.onlyFd (nfd : Int) (ev : Event) : Prop :=
  (∀ d, ev.closesFd = some d → d = nfd) ∧ (∀ d, ev.readerFd = some d → d = nfd)

/-- The trace `t1` continues the trace `t` with events that all satisfy `P`. -/
def Extends (P : Event → Prop) (t t1 : List Event) : Prop :=
  ∃ ext, t1 = t ++ ext ∧ ∀ ev ∈ ext, P ev

/-! ## Sample inputs -/

/-- An ELF object of five sections with a 16-byte raw CTF section, a symbol
table at index 2 linked to the string table at index 3; every call succeeds. -/
def worldElf : World :=
  { fstat_ok := true, fstat_errno := 0, st_size := 4096
    pread_hdr := 4, pread_hdr_errno := 0, ctp_magic := 0x457f, ctp_version := 0x4c
    mmap_ok := true, mmap_errno := 0
    simple_open_ok := true, simple_open_err := 0
    calloc_ok := true, calloc_errno := 0
    pread_arc := 8, pread_arc_errno := 0, arc_magic := 0x10102464c457f
    arc_open_ok := true, arc_open_err := 0
    dup_ret := 4, dup_errno := 0
    fdopenr_ok := true
    check_format_ok := true, bfd_error_ambiguous := false
    ctf_section_found := true, ctf_read_ok := true, ctf_section_size := 16
    ctf_contents := [0xf2, 0xdf, 4, 0, 0, 0, 0, 0, 0, 0, 0, 0, 0, 0, 0, 0]
    elf_onesymtab := 2
    elf_symtab_hdr := { sh_name := 1, sh_size := 24, sh_link := 3 }
    elf_elfsections :=
      [⟨0, 0, 0⟩, ⟨27, 64, 0⟩, ⟨1, 24, 3⟩, ⟨9, 40, 0⟩, ⟨17, 16, 0⟩]
    section_from_elf_index := fun i => decide (0 < i ∧ i < 5)
    str_read_ok := true, str_size := 40, str_contents := []
    sym_read_ok := true, sym_size := 48, sym_contents := []
    arc_bufopen_ok := true, arc_bufopen_err := 0
    bufopen_ok := true, bufopen_err := 0 }

/-- A raw CTF container file (magic and version of the preamble match) that
the decoder rejects with error 1007. -/
def worldRawRejected : World :=
  { worldElf with
    ctp_magic := 0xdff2, ctp_version := 4
    simple_open_ok := false, simple_open_err := 1007 }

/-- A file that is neither raw CTF nor an archive and that
`bfd_check_format` rejects. -/
def worldBadFormat : World :=
  { worldElf with check_format_ok := false }

/-- The ELF object, its symbol table now linked to section index 5: the number
of sections, one past the last header. -/
def worldBadLink : World :=
  { worldElf with elf_symtab_hdr := { sh_name := 1, sh_size := 24, sh_link := 5 } }

/-- A descriptor whose first positioned read fails with `EIO` (5). -/
def worldReadError : World :=
  { worldElf with pread_hdr := -1, pread_hdr_errno := 5 }

/-- A raw CTF container whose preamble declares version 5. -/
def worldNewVersion : World :=
  { worldElf with ctp_magic := 0xdff2, ctp_version := 5 }

/-- The ELF object without a `.ctf` section. -/
def worldNoCtf : World :=
  { worldElf with ctf_section_found := false }

/-- The ELF object without a symbol table. -/
def worldNoSymtab : World :=
  { worldElf with section_from_elf_index := fun _ => false }

/-- A file of exactly eight bytes holding the archive magic: the preamble read
returns four bytes that are not `CTF_MAGIC`, the second read all eight. -/
def worldArchiveFile8 : World :=
  { worldElf with
    st_size := 8, pread_hdr := 4, ctp_magic := 0x3eeb, ctp_version := 0x62
    pread_arc := 8, arc_magic := 0x8b47f2a4d7623eeb }

/-- The archive-magic check in the specification's words, which is also the
test of `ctf_fdopen` on the bytes it read: at least `sizeof (uint64_t)` bytes,
the first eight equal to `CTFA_MAGIC`. -/
def archiveMagicSpec (K : Consts) (n : Nat) (bytes : List Nat) : Bool :=
  decide (n ≥ sizeof_uint64_t) && decide (load_uint64 bytes = some K.CTFA_MAGIC)

/-- The handle `ctf_bfdopen_ctfsect` builds for the sample ELF object. -/
def handleElfSect : ctf_archive_internal :=
  { ctfi_is_archive := false
    ctfi_archive := none
    ctfi_file := some { ctf_data_mmapped := false, ctf_data_mmapped_len := 0 }
    ctfi_symsect := some { cts_name := .strtab 1, cts_entsize := 24, cts_size := 48, cts_data := [] }
    ctfi_strsect := some { cts_name := .strtab 9, cts_entsize := 40, cts_size := 40, cts_data := [] }
    ctfi_data := none
    ctfi_abfd := none
    ctfi_bfd_close := false }

/-- The handle `ctf_bfdopen` builds for the sample ELF object. -/
def handleElfBfd : ctf_archive_internal :=
  { handleElfSect with ctfi_data := some (Ptr.buf .ctf) }

/-- The handle `ctf_fdopen` builds for the sample ELF object. -/
def handleElfFd : ctf_archive_internal :=
  { handleElfBfd with ctfi_abfd := some 4, ctfi_bfd_close := true }

/-- The sixteen-byte `.ctf` section of the sample ELF object. -/
def sectElf : ctf_sect_t :=
  { cts_name := .literal ".ctf", cts_entsize := 1, cts_size := 16
    cts_data := [0xf2, 0xdf, 4, 0, 0, 0, 0, 0, 0, 0, 0, 0, 0, 0, 0, 0] }

/-- A schedule with two interruptions, then one-byte transfers. -/
def schedTwoIntr : Nat → PreadChoice :=
  fun j => if j < 2 then PreadChoice.fail EINTR else PreadChoice.xfer 1

/-- A section of nine bytes: the archive magic and one byte more. -/
def sectMagicPlusOne : ctf_sect_t :=
  { cts_name := .literal ".ctf", cts_entsize := 1, cts_size := 9
    cts_data := [0xeb, 0x3e, 0x62, 0xd7, 0xa4, 0xf2, 0x47, 0x8b, 0] }

/-- The eight bytes of `CTFA_MAGIC` (0x8b47f2a4d7623eeb), little-endian. -/
def arcMagicBytes : List Nat := [0xeb, 0x3e, 0x62, 0xd7, 0xa4, 0xf2, 0x47, 0x8b]

/-- A section of exactly eight bytes holding the archive magic. -/
def sectMagicOnly : ctf_sect_t :=
  { cts_name := .literal ".ctf", cts_entsize := 1, cts_size := 8, cts_data := arcMagicBytes }

/-! ## Theorems: `ctf_version` -/

theorem reachable_version (K : Consts) (s : LibState) (h : Reachable K s) :
    s._libctf_version = K.CTF_VERSION := by
  induction h with
  | init e => rfl
  | call s v _ ih =>
    unfold ctf_version
    split_ifs with h1 h2 h3
    · exact ih
    · exact ih
    · simp only [ne_eq, not_not] at h3
      exact h3
    · exact ih
  | setErrno s e _ ih => exact ih

/-! ## Theorems: `ctf_pread` -/

theorem ctf_pread_loop_spec (file : List Nat) (sched : Nat → PreadChoice) (B : Nat)
    (hintr : ∀ j e, sched j = PreadChoice.fail e → e = EINTR)
    (hfin : ∀ j, B ≤ j → ∀ e, sched j ≠ PreadChoice.fail e) :
    ∀ (fuel i : Nat) (count offset acc : Int) (buf : List Nat),
      0 ≤ count → 0 ≤ offset → (B - i) + count.toNat < fuel →
      ctf_pread_loop file sched fuel i count offset acc buf =
        some (acc + preadExpected file count offset,
              buf ++ fileSlice file offset (preadExpected file count offset)) := by
  intro fuel
  induction fuel with
  | zero => intro i count offset acc buf _ _ h; omega
  | succ fuel ih =>
    intro i count offset acc buf hc ho hf
    unfold ctf_pread_loop
    by_cases hpos : count > 0
    · rw [if_pos hpos]
      cases hs : sched i with
      | fail e =>
        have he : e = EINTR := hintr i e hs
        subst he
        have hiB : i < B := by
          by_contra hcon
          exact hfin i (by omega) _ hs
        simp only [pread, ne_eq, not_true_eq_false, and_false, if_false, if_true]
        exact ih (i + 1) count offset acc buf hc ho (by omega)
      | xfer k =>
        have hneg : ¬ offset < 0 := by omega
        simp only [pread, hneg, if_false]
        by_cases heof : offset ≥ (file.length : Int)
        · rw [if_pos heof]
          have hE : preadExpected file count offset = 0 := by
            unfold preadExpected; omega
          simp [hE, fileSlice, EINTR]
        · rw [if_neg heof]
          set n : Int := min (max (k : Int) 1) (min count ((file.length : Int) - offset))
            with hn
          have hn1 : 1 ≤ n := by omega
          have hn2 : n ≤ count := by omega
          have hn3 : n ≤ (file.length : Int) - offset := by omega
          have h1 : ¬ (n < 0 ∧ (0 : Int) ≠ EINTR) := by
            intro h; omega
          have h2 : ¬ ((0 : Int) = EINTR) := by decide
          have h3 : ¬ (n = 0) := by omega
          simp only [h1, h2, h3, if_false]
          rw [ih (i + 1) (count - n) (offset + n) (acc + n) _ (by omega) (by omega)
            (by omega)]
          have hE : preadExpected file count offset =
              n + preadExpected file (count - n) (offset + n) := by
            unfold preadExpected; omega
          have hE0 : 0 ≤ preadExpected file (count - n) (offset + n) := by
            unfold preadExpected; omega
          rw [hE]
          simp only [Option.some.injEq, Prod.mk.injEq]
          refine ⟨by ring, ?_⟩
          · unfold fileSlice
            rw [List.append_assoc]
            congr 1
            have e1 : (n + preadExpected file (count - n) (offset + n)).toNat =
                n.toNat + (preadExpected file (count - n) (offset + n)).toNat := by
              omega
            have e2 : (offset + n).toNat = offset.toNat + n.toNat := by omega
            rw [e1, e2, List.take_add, List.drop_drop]
    · rw [if_neg hpos]
      have hc0 : count = 0 := by omega
      have hE : preadExpected file count offset = 0 := by
        unfold preadExpected; omega
      simp [hE, fileSlice]



/-- C10: with `pread` interrupted finitely often (no interruption from call
`B` on), never failing otherwise, and transferring between 1 and
`min (count, bytes left)` bytes per call, `ctf_pread` on a file of length `L`
returns, for every fuel above `B + count`, exactly
`min (count, max (0, L - offset))` with the file's bytes
`[offset, offset + result)` in the buffer, whatever the schedule. -/
theorem ctf_pread_total_correct (file : List Nat) (sched : Nat → PreadChoice) (B : Nat)
    (count offset : Int) (hcount : 0 ≤ count) (hoffset : 0 ≤ offset)
    (hintr : ∀ j e, sched j = PreadChoice.fail e → e = EINTR)
    (hfin : ∀ j, B ≤ j → ∀ e, sched j ≠ PreadChoice.fail e)
    (fuel : Nat) (hfuel : B + count.toNat < fuel) :
    ctf_pread file sched fuel count offset =
      some (preadExpected file count offset,
            fileSlice file offset (preadExpected file count offset)) := by
  unfold ctf_pread
  rw [ctf_pread_loop_spec file sched B hintr hfin fuel 0 count offset 0 [] hcount hoffset
    (by omega)]
  simp

/-- Witness for C10: five bytes, two interruptions then one-byte transfers,
three bytes asked from offset 1. -/
theorem ctf_pread_total_correct_witness :
    ctf_pread [1, 2, 3, 4, 5] schedTwoIntr 6 3 1 = some (3, [2, 3, 4]) :=
  ctf_pread_total_correct [1, 2, 3, 4, 5] schedTwoIntr 2 3 1 (by decide) (by decide)
    (by
      intro j e h
      unfold schedTwoIntr at h
      split_ifs at h
      · injection h with h1
        exact h1.symm)
    (by
      intro j hj e h
      unfold schedTwoIntr at h
      split_ifs at h
      omega)
    6 (by decide)

/-- C6: `ctf_version (0)` returns the active version and changes nothing;
`ctf_version (CTF_VERSION)` returns `CTF_VERSION` and makes it active; a
negative argument gives -1 with `EINVAL`, any other positive one -1 with
`ENOTSUP`, both leaving the active version alone; and in every reachable state
the active version is `CTF_VERSION`, before and after the call. -/
theorem ctf_version_contract (K : Consts) (hK : 0 < K.CTF_VERSION) (s : LibState)
    (v : Int) :
    (v = 0 → ctf_version K s v = (s._libctf_version, s)) ∧
    (v = K.CTF_VERSION →
      (ctf_version K s v).1 = K.CTF_VERSION ∧
      (ctf_version K s v).2._libctf_version = K.CTF_VERSION) ∧
    (v < 0 → ctf_version K s v = (-1, { s with errno := EINVAL })) ∧
    (0 < v → v ≠ K.CTF_VERSION → ctf_version K s v = (-1, { s with errno := ENOTSUP })) ∧
    (Reachable K s →
      s._libctf_version = K.CTF_VERSION ∧
      (ctf_version K s v).2._libctf_version = K.CTF_VERSION) := by
  refine ⟨?_, ?_, ?_, ?_, ?_⟩
  · intro h
    subst h
    simp [ctf_version]
  · intro h
    subst h
    have h1 : ¬ K.CTF_VERSION < 0 := by omega
    simp [ctf_version, h1, hK]
  · intro h
    simp [ctf_version, h]
  · intro h1 h2
    have h3 : ¬ v < 0 := by omega
    simp [ctf_version, h1, h2, h3]
  · intro h
    exact ⟨reachable_version K s h, reachable_version K _ (Reachable.call s v h)⟩

/-- Witness for C6: the shipped constants, the initial state, and a request
for version 7. -/
theorem ctf_version_contract_witness :
    ctf_version libctfConsts (LibState.initial libctfConsts 0) 7 =
      (-1, { LibState.initial libctfConsts 0 with errno := ENOTSUP }) :=
  (ctf_version_contract libctfConsts (by decide) (LibState.initial libctfConsts 0) 7).2.2.2.1
    (by decide) (by decide)

/-- C5 as stated fails: a first read that returns -1 with `errno` `EIO` (5)
leaves 5 in `*errp`, which is neither `ECTF_FMT` nor `ECTF_NOCTFDATA`. -/
theorem ctf_fdopen_read_error_keeps_errno :
    worldReadError.fstat_ok = true ∧ worldReadError.pread_hdr ≤ 0 ∧
    (ctf_fdopen libctfConsts worldReadError 3 (Run.start 0)).1 = Outcome.null ∧
    (ctf_fdopen libctfConsts worldReadError 3 (Run.start 0)).2.errp = 5 ∧
    ¬ ((ctf_fdopen libctfConsts worldReadError 3 (Run.start 0)).2.errp =
          libctfConsts.ECTF_FMT ∨
       (ctf_fdopen libctfConsts worldReadError 3 (Run.start 0)).2.errp =
          libctfConsts.ECTF_NOCTFDATA) := by
  decide

/-- C5, amended: when the first positioned read returns zero or less,
`ctf_fdopen` returns null after the `fstat` and that one read, with `ECTF_FMT`
in `*errp` when the read returned zero and the read's `errno` when it returned
a negative count. -/
theorem ctf_fdopen_header_read_failure (K : Consts) (w : World) (fd e : Int)
    (hstat : w.fstat_ok = true) (hread : w.pread_hdr ≤ 0) :
    ctf_fdopen K w fd (Run.start e) =
      (Outcome.null,
       { trace := [Event.fstat fd, Event.ctf_pread fd K.sizeof_ctf_preamble_t 0]
         errp := if w.pread_hdr < 0 then w.pread_hdr_errno else K.ECTF_FMT }) := by
  simp [ctf_fdopen, hstat, hread, ctf_set_open_errno, Run.emit, Run.start]

/-- Witness for C5 amended: the read failing with `EIO`. -/
theorem ctf_fdopen_header_read_failure_witness :
    ctf_fdopen libctfConsts worldReadError 3 (Run.start 0) =
      (Outcome.null,
       { trace := [Event.fstat 3, Event.ctf_pread 3 4 0]
         errp := 5 }) :=
  ctf_fdopen_header_read_failure libctfConsts worldReadError 3 0 (by decide) (by decide)

/-- C7: a full preamble with magic `CTF_MAGIC` and a version above
`CTF_VERSION` makes `ctf_fdopen` return null with `ECTF_CTFVERS` in `*errp`,
the `fstat` and the preamble read being the only calls made. -/
theorem ctf_fdopen_version_gate (K : Consts) (w : World) (fd e : Int)
    (hsize : 0 < K.sizeof_ctf_preamble_t)
    (hstat : w.fstat_ok = true)
    (hfull : (K.sizeof_ctf_preamble_t : Int) ≤ w.pread_hdr)
    (hmagic : w.ctp_magic = K.CTF_MAGIC)
    (hver : K.CTF_VERSION < (w.ctp_version : Int)) :
    ctf_fdopen K w fd (Run.start e) =
      (Outcome.null,
       { trace := [Event.fstat fd, Event.ctf_pread fd K.sizeof_ctf_preamble_t 0]
         errp := K.ECTF_CTFVERS }) := by
  have h1 : ¬ w.pread_hdr ≤ 0 := by omega
  have h2 : K.sizeof_ctf_preamble_t ≤ w.pread_hdr.toNat := by omega
  simp [ctf_fdopen, ctf_fdopen_raw, hstat, h1, h2, hmagic, hver, ctf_set_open_errno,
    Run.emit, Run.start]

/-- Witness for C7: a preamble declaring version 5. -/
theorem ctf_fdopen_version_gate_witness :
    ctf_fdopen libctfConsts worldNewVersion 3 (Run.start 0) =
      (Outcome.null,
       { trace := [Event.fstat 3, Event.ctf_pread 3 4 0]
         errp := 1002 }) :=
  ctf_fdopen_version_gate libctfConsts worldNewVersion 3 0 (by decide) (by decide)
    (by decide) (by decide) (by decide)

/-- C1: once the raw container is recognised and mapped, a failing
`ctf_simple_open` makes `ctf_fdopen` unmap the mapping once and then store
into a field of the null `fp`: the call does not return a null handle. -/
theorem ctf_fdopen_decoder_failure_stores_through_null (K : Consts) (w : World)
    (fd e : Int)
    (hsize : 0 < K.sizeof_ctf_preamble_t)
    (hstat : w.fstat_ok = true)
    (hfull : (K.sizeof_ctf_preamble_t : Int) ≤ w.pread_hdr)
    (hmagic : w.ctp_magic = K.CTF_MAGIC)
    (hver : (w.ctp_version : Int) ≤ K.CTF_VERSION)
    (hmap : w.mmap_ok = true)
    (hdec : w.simple_open_ok = false) :
    ctf_fdopen K w fd (Run.start e) =
      (Outcome.fault,
       { trace := [Event.fstat fd, Event.ctf_pread fd K.sizeof_ctf_preamble_t 0,
                   Event.ctf_mmap fd w.st_size true, Event.ctf_simple_open false,
                   Event.ctf_munmap, Event.store_fp true]
         errp := w.simple_open_err }) := by
  have h1 : ¬ w.pread_hdr ≤ 0 := by omega
  have h2 : K.sizeof_ctf_preamble_t ≤ w.pread_hdr.toNat := by omega
  have h3 : ¬ K.CTF_VERSION < (w.ctp_version : Int) := by omega
  simp [ctf_fdopen, ctf_fdopen_raw, hstat, h1, h2, h3, hmagic, hmap, hdec, Run.emit,
    Run.start]

/-- Witness for C1: the raw container the decoder rejects with 1007. -/
theorem ctf_fdopen_decoder_failure_stores_through_null_witness :
    ctf_fdopen libctfConsts worldRawRejected 3 (Run.start 0) =
      (Outcome.fault,
       { trace := [Event.fstat 3, Event.ctf_pread 3 4 0,
                   Event.ctf_mmap 3 4096 true, Event.ctf_simple_open false,
                   Event.ctf_munmap, Event.store_fp true]
         errp := 1007 }) :=
  ctf_fdopen_decoder_failure_stores_through_null libctfConsts worldRawRejected 3 0
    (by decide) (by decide) (by decide) (by decide) (by decide) (by decide) (by decide)

/-- C2: when `bfd_check_format` rejects the file, `ctf_fdopen` returns null
having acquired the duplicated descriptor and the reader handle once each and
released neither. -/
theorem ctf_fdopen_check_format_failure_leaks (K : Consts) (w : World) (fd e : Int)
    (hstat : w.fstat_ok = true)
    (hread : 0 < w.pread_hdr)
    (hraw : ¬ (w.pread_hdr.toNat ≥ K.sizeof_ctf_preamble_t ∧ w.ctp_magic = K.CTF_MAGIC))
    (hread2 : 0 < w.pread_arc)
    (harc : ¬ (w.pread_arc.toNat ≥ sizeof_uint64_t ∧ w.arc_magic = K.CTFA_MAGIC))
    (hdup : 0 ≤ w.dup_ret)
    (hopen : w.fdopenr_ok = true)
    (hfmt : w.check_format_ok = false) :
    (ctf_fdopen K w fd (Run.start e)).1 = Outcome.null ∧
    (ctf_fdopen K w fd (Run.start e)).2.trace =
      [Event.fstat fd, Event.ctf_pread fd K.sizeof_ctf_preamble_t 0,
       Event.ctf_pread fd sizeof_uint64_t 0, Event.dup fd w.dup_ret,
       Event.bfd_fdopenr w.dup_ret true, Event.bfd_check_format false] ∧
    acquired Res.abfd (ctf_fdopen K w fd (Run.start e)).2.trace = 1 ∧
    released Res.abfd (ctf_fdopen K w fd (Run.start e)).2.trace = 0 ∧
    acquired Res.dupfd (ctf_fdopen K w fd (Run.start e)).2.trace = 1 ∧
    released Res.dupfd (ctf_fdopen K w fd (Run.start e)).2.trace = 0 := by
  have h1 : ¬ w.pread_hdr ≤ 0 := by omega
  have h2 : ¬ w.pread_arc ≤ 0 := by omega
  have h3 : ¬ w.dup_ret < 0 := by omega
  have ht : ctf_fdopen K w fd (Run.start e) =
      (Outcome.null,
       { trace := [Event.fstat fd, Event.ctf_pread fd K.sizeof_ctf_preamble_t 0,
                   Event.ctf_pread fd sizeof_uint64_t 0, Event.dup fd w.dup_ret,
                   Event.bfd_fdopenr w.dup_ret true, Event.bfd_check_format false]
         errp := if w.bfd_error_ambiguous then K.ECTF_BFD_AMBIGUOUS else K.ECTF_FMT }) := by
    simp only [ctf_fdopen, ctf_fdopen_bfd, hstat, h1, h2, h3, hraw, harc, hopen, hfmt,
      Run.emit, Run.start, ctf_set_open_errno]
    cases w.bfd_error_ambiguous <;> simp
  rw [ht]
  simp [acquired, released, Event.acquires, Event.releases, hdup]

/-- Witness for C2: the file `bfd_check_format` rejects, opened on
descriptor 3. -/
theorem ctf_fdopen_check_format_failure_leaks_witness :
    (ctf_fdopen libctfConsts worldBadFormat 3 (Run.start 0)).1 = Outcome.null ∧
    (ctf_fdopen libctfConsts worldBadFormat 3 (Run.start 0)).2.trace =
      [Event.fstat 3, Event.ctf_pread 3 4 0, Event.ctf_pread 3 8 0, Event.dup 3 4,
       Event.bfd_fdopenr 4 true, Event.bfd_check_format false] ∧
    acquired Res.abfd (ctf_fdopen libctfConsts worldBadFormat 3 (Run.start 0)).2.trace = 1 ∧
    released Res.abfd (ctf_fdopen libctfConsts worldBadFormat 3 (Run.start 0)).2.trace = 0 ∧
    acquired Res.dupfd (ctf_fdopen libctfConsts worldBadFormat 3 (Run.start 0)).2.trace = 1 ∧
    released Res.dupfd (ctf_fdopen libctfConsts worldBadFormat 3 (Run.start 0)).2.trace = 0 :=
  ctf_fdopen_check_format_failure_leaks libctfConsts worldBadFormat 3 0 (by decide)
    (by decide) (by decide) (by decide) (by decide) (by decide) (by decide) (by decide)

/-- C4: when the object has a symbol table whose `sh_link` is not below the
number of sections, `ctf_bfdopen_ctfsect` indexes `elf_elfsections` with that
link, outside the array, and returns no handle. -/
theorem ctf_bfdopen_ctfsect_indexes_with_bad_link (K : Consts) (w : World)
    (ctfsect : ctf_sect_t) (e : Int)
    (hsym : w.section_from_elf_index w.elf_onesymtab = true)
    (hlink : elf_numsections w ≤ w.elf_symtab_hdr.sh_link) :
    (ctf_bfdopen_ctfsect K w ctfsect (Run.start e)).1 = Outcome.fault ∧
    Event.elf_elfsections_index w.elf_symtab_hdr.sh_link ∈
      (ctf_bfdopen_ctfsect K w ctfsect (Run.start e)).2.trace ∧
    (w.elf_symtab_hdr.sh_link = elf_numsections w → w.elf_symtab_hdr.sh_link ≠ SHN_UNDEF →
      Event.bfd_section_from_elf_index w.elf_symtab_hdr.sh_link ∈
        (ctf_bfdopen_ctfsect K w ctfsect (Run.start e)).2.trace) := by
  have hget : w.elf_elfsections[w.elf_symtab_hdr.sh_link]? = none :=
    List.getElem?_eq_none hlink
  refine ⟨?_, ?_, ?_⟩
  · simp [ctf_bfdopen_ctfsect, hsym, hget]
  · simp only [ctf_bfdopen_ctfsect, hsym, hget, if_true]
    split_ifs <;> simp [Run.emit, Run.start]
  · intro h1 h2
    have hg : w.elf_symtab_hdr.sh_link ≤ elf_numsections w := by omega
    simp [ctf_bfdopen_ctfsect, hsym, hget, h2, hg, Run.emit, Run.start]

/-- Witness for C4: five sections, the symbol table linked to index 5. -/
theorem ctf_bfdopen_ctfsect_indexes_with_bad_link_witness :
    (ctf_bfdopen_ctfsect libctfConsts worldBadLink sectMagicOnly (Run.start 0)).1 =
      Outcome.fault ∧
    Event.elf_elfsections_index 5 ∈
      (ctf_bfdopen_ctfsect libctfConsts worldBadLink sectMagicOnly (Run.start 0)).2.trace ∧
    Event.bfd_section_from_elf_index 5 ∈
      (ctf_bfdopen_ctfsect libctfConsts worldBadLink sectMagicOnly (Run.start 0)).2.trace :=
  have h := ctf_bfdopen_ctfsect_indexes_with_bad_link libctfConsts worldBadLink
    sectMagicOnly 0 (by decide) (by decide)
  ⟨h.1, h.2.1, h.2.2 (by decide) (by decide)⟩

/-! ## Theorems: the handle invariant -/

theorem new_archive_internal_wellFormed (w : World) (is_archive : Bool)
    (arc : Option ctf_archive) (fp : Option ctf_file_t)
    (symsect strsect : Option ctf_sect_t) (r : Run)
    (harc : is_archive = true → arc ≠ none) (hfp : is_archive = false → fp ≠ none)
    (htab : symsect.isSome = strsect.isSome) :
    (ctf_new_archive_internal w is_archive arc fp symsect strsect r).1.wellFormed := by
  unfold ctf_new_archive_internal
  by_cases hc : w.calloc_ok = false
  · simp [hc, ctf_set_open_errno, Outcome.wellFormed]
  · cases is_archive
    · simpa [hc, Outcome.wellFormed, ctf_archive_internal.wellFormed, htab] using hfp
    · simpa [hc, Outcome.wellFormed, ctf_archive_internal.wellFormed, htab] using harc

theorem ctfsect_err_null (K : Consts) (b : Bool) (r : Run) :
    (ctfsect_err K b r).1 = Outcome.null := by
  unfold ctfsect_err
  split_ifs <;> rfl

theorem ctfsect_err_free_str_null (K : Consts) (strsect : Option ctf_sect_t) (b : Bool)
    (r : Run) : (ctfsect_err_free_str K strsect b r).1 = Outcome.null :=
  ctfsect_err_null K b _

theorem ctfsect_err_free_sym_null (K : Consts) (symsect strsect : Option ctf_sect_t)
    (b : Bool) (r : Run) : (ctfsect_err_free_sym K symsect strsect b r).1 = Outcome.null :=
  ctfsect_err_null K b _

theorem ctfsect_open_wellFormed (K : Consts) (w : World) (ctfsect : ctf_sect_t)
    (symsect strsect : Option ctf_sect_t) (r : Run)
    (htab : symsect.isSome = strsect.isSome) :
    (ctfsect_open K w ctfsect symsect strsect r).1.wellFormed := by
  unfold ctfsect_open
  split
  · trivial
  · split_ifs
    · rw [ctfsect_err_free_sym_null]; trivial
    · have hwf := new_archive_internal_wellFormed w true (some ⟨0⟩) none symsect strsect
        (r.emit (.ctf_arc_bufopen w.arc_bufopen_ok)) (by simp) (by simp) htab
      simp only []
      split
      · rename_i arci heq
        rw [heq] at hwf
        exact hwf
      · rw [ctfsect_err_free_sym_null]; trivial
  · split_ifs
    · rw [ctfsect_err_free_sym_null]; trivial
    · have hwf := new_archive_internal_wellFormed w false none (some ⟨false, 0⟩) symsect
        strsect (r.emit (.ctf_bufopen w.bufopen_ok)) (by simp) (by simp) htab
      simp only []
      split
      · rename_i arci heq
        rw [heq] at hwf
        exact hwf
      · rw [ctfsect_err_free_sym_null]; trivial

theorem ctf_bfdopen_ctfsect_wellFormed (K : Consts) (w : World) (ctfsect : ctf_sect_t)
    (r : Run) : (ctf_bfdopen_ctfsect K w ctfsect r).1.wellFormed := by
  unfold ctf_bfdopen_ctfsect
  simp only []
  split_ifs
  all_goals first
    | exact ctfsect_open_wellFormed K w ctfsect _ _ _ rfl
    | skip
  all_goals split
  all_goals first
    | trivial
    | exact ctfsect_open_wellFormed K w ctfsect _ _ _ rfl

theorem ctf_bfdopen_wellFormed (K : Consts) (w : World) (r : Run) :
    (ctf_bfdopen K w r).1.wellFormed := by
  unfold ctf_bfdopen
  simp only []
  split_ifs
  · trivial
  · trivial
  · have hwf := ctf_bfdopen_ctfsect_wellFormed K w
      { cts_name := .literal ".ctf", cts_entsize := 1, cts_size := w.ctf_section_size,
        cts_data := w.ctf_contents }
      ((r.emit (.bfd_get_section_by_name w.ctf_section_found)).emit
        (.bfd_malloc_and_get_section .ctf w.ctf_read_ok))
    split
    · rename_i arc heq
      rw [heq] at hwf
      exact hwf
    · trivial
    · trivial

theorem ctf_fdopen_raw_wellFormed (K : Consts) (w : World) (fd : Int) (r : Run) :
    (ctf_fdopen_raw K w fd r).1.wellFormed := by
  unfold ctf_fdopen_raw
  simp only []
  by_cases h1 : (w.ctp_version : Int) > K.CTF_VERSION
  · rw [if_pos h1]; trivial
  · rw [if_neg h1]
    by_cases h2 : w.mmap_ok = false
    · rw [if_pos h2]; trivial
    · rw [if_neg h2]
      cases h3 : w.simple_open_ok
      · trivial
      · exact new_archive_internal_wellFormed w false none _ none none _ (by simp)
          (by simp) rfl

theorem ctf_fdopen_bfd_wellFormed (K : Consts) (w : World) (fd : Int) (r : Run) :
    (ctf_fdopen_bfd K w fd r).1.wellFormed := by
  unfold ctf_fdopen_bfd
  simp only []
  split_ifs
  · trivial
  · trivial
  · trivial
  · trivial
  · have hwf := ctf_bfdopen_wellFormed K w
      (((r.emit (.dup fd w.dup_ret)).emit (.bfd_fdopenr w.dup_ret w.fdopenr_ok)).emit
        (.bfd_check_format w.check_format_ok))
    split
    · rename_i arci heq
      rw [heq] at hwf
      exact hwf
    · trivial
    · trivial

theorem ctf_fdopen_wellFormed (K : Consts) (w : World) (fd : Int) (r : Run) :
    (ctf_fdopen K w fd r).1.wellFormed := by
  unfold ctf_fdopen
  simp only []
  split_ifs
  all_goals first
    | trivial
    | exact ctf_fdopen_raw_wellFormed K w fd _
    | exact ctf_fdopen_bfd_wellFormed K w fd _
    | exact new_archive_internal_wellFormed w true (some ⟨0⟩) none none none _ (by simp)
        (by simp) rfl

/-! ## Theorems: descriptors -/

theorem Extends.refl (P : Event → Prop) (t : List Event) : Extends P t t :=
  ⟨[], by simp, by simp⟩

theorem Extends.emit {P : Event → Prop} {t0 t : List Event} {ev : Event}
    (h : Extends P t0 t) (hev : P ev) : Extends P t0 (t ++ [ev]) := by
  obtain ⟨ext, h1, h2⟩ := h
  refine ⟨ext ++ [ev], by simp [h1], ?_⟩
  intro x hx
  rcases List.mem_append.mp hx with hx | hx
  · exact h2 x hx
  · simp only [List.mem_singleton] at hx
    subst hx
    exact hev

theorem Extends.mem {P : Event → Prop} {t0 t : List Event} (h : Extends P t0 t)
    (ev : Event) (hev : ev ∈ t0) : ev ∈ t := by
  obtain ⟨ext, h1, _⟩ := h
  rw [h1]
  exact List.mem_append_left _ hev

theorem Extends.all {P : Event → Prop} {t : List Event} (h : Extends P [] t) :
    ∀ ev ∈ t, P ev := by
  obtain ⟨ext, h1, h2⟩ := h
  simp only [List.nil_append] at h1
  subst h1
  exact h2

theorem quiet_new_archive_internal (P : Event → Prop) (hP : ∀ ev, ev.quiet → P ev)
    (t0 : List Event) (w : World) (is_archive : Bool) (arc : Option ctf_archive)
    (fp : Option ctf_file_t) (symsect strsect : Option ctf_sect_t) (r : Run)
    (h : Extends P t0 r.trace) :
    Extends P t0 (ctf_new_archive_internal w is_archive arc fp symsect strsect r).2.trace := by
  unfold ctf_new_archive_internal
  simp only [Run.emit, ctf_set_open_errno]
  split_ifs
  all_goals simp only []
  all_goals repeat (first | exact h | refine Extends.emit ?_ (hP _ ⟨rfl, rfl⟩))

theorem quiet_ctfsect_err (P : Event → Prop) (t0 : List Event) (K : Consts) (b : Bool)
    (r : Run) (h : Extends P t0 r.trace) : Extends P t0 (ctfsect_err K b r).2.trace := by
  unfold ctfsect_err
  split_ifs
  · exact h
  · exact h

theorem quiet_ctfsect_err_free_str (P : Event → Prop) (hP : ∀ ev, ev.quiet → P ev)
    (t0 : List Event) (K : Consts) (strsect : Option ctf_sect_t) (b : Bool) (r : Run)
    (h : Extends P t0 r.trace) :
    Extends P t0 (ctfsect_err_free_str K strsect b r).2.trace := by
  unfold ctfsect_err_free_str
  apply quiet_ctfsect_err
  exact Extends.emit h (hP _ ⟨rfl, rfl⟩)

theorem quiet_ctfsect_err_free_sym (P : Event → Prop) (hP : ∀ ev, ev.quiet → P ev)
    (t0 : List Event) (K : Consts) (symsect strsect : Option ctf_sect_t) (b : Bool)
    (r : Run) (h : Extends P t0 r.trace) :
    Extends P t0 (ctfsect_err_free_sym K symsect strsect b r).2.trace := by
  unfold ctfsect_err_free_sym
  apply quiet_ctfsect_err_free_str P hP
  exact Extends.emit h (hP _ ⟨rfl, rfl⟩)

theorem quiet_ctfsect_open (P : Event → Prop) (hP : ∀ ev, ev.quiet → P ev)
    (t0 : List Event) (K : Consts) (w : World) (ctfsect : ctf_sect_t)
    (symsect strsect : Option ctf_sect_t) (r : Run) (h : Extends P t0 r.trace) :
    Extends P t0 (ctfsect_open K w ctfsect symsect strsect r).2.trace := by
  unfold ctfsect_open
  simp only []
  split
  · exact h
  · split_ifs
    · apply quiet_ctfsect_err_free_sym P hP
      exact Extends.emit h (hP _ ⟨rfl, rfl⟩)
    · have hx := quiet_new_archive_internal P hP t0 w true (some ⟨0⟩) none symsect strsect
        (r.emit (.ctf_arc_bufopen w.arc_bufopen_ok)) (Extends.emit h (hP _ ⟨rfl, rfl⟩))
      split
      · exact hx
      · exact quiet_ctfsect_err_free_sym P hP t0 K symsect strsect false _ hx
  · split_ifs
    · apply quiet_ctfsect_err_free_sym P hP
      exact Extends.emit h (hP _ ⟨rfl, rfl⟩)
    · have hx := quiet_new_archive_internal P hP t0 w false none (some ⟨false, 0⟩) symsect
        strsect (r.emit (.ctf_bufopen w.bufopen_ok)) (Extends.emit h (hP _ ⟨rfl, rfl⟩))
      split
      · exact hx
      · exact quiet_ctfsect_err_free_sym P hP t0 K symsect strsect false _ hx

theorem quiet_ctf_bfdopen_ctfsect (P : Event → Prop) (hP : ∀ ev, ev.quiet → P ev)
    (t0 : List Event) (K : Consts) (w : World) (ctfsect : ctf_sect_t) (r : Run)
    (h : Extends P t0 r.trace) :
    Extends P t0 (ctf_bfdopen_ctfsect K w ctfsect r).2.trace := by
  unfold ctf_bfdopen_ctfsect
  simp only [Run.emit]
  split_ifs
  all_goals try split
  all_goals first
    | apply quiet_ctfsect_open P hP
    | apply quiet_ctfsect_err_free_str P hP
    | apply quiet_ctfsect_err P
    | skip
  all_goals try simp only []
  all_goals repeat (first | exact h | refine Extends.emit ?_ (hP _ ⟨rfl, rfl⟩))

theorem quiet_ctf_bfdopen (P : Event → Prop) (hP : ∀ ev, ev.quiet → P ev)
    (t0 : List Event) (K : Consts) (w : World) (r : Run) (h : Extends P t0 r.trace) :
    Extends P t0 (ctf_bfdopen K w r).2.trace := by
  have h1 : Extends P t0 (r.emit (.bfd_get_section_by_name w.ctf_section_found)).trace :=
    Extends.emit h (hP _ ⟨rfl, rfl⟩)
  have h2 : Extends P t0 ((r.emit (.bfd_get_section_by_name w.ctf_section_found)).emit
      (.bfd_malloc_and_get_section .ctf w.ctf_read_ok)).trace :=
    Extends.emit h1 (hP _ ⟨rfl, rfl⟩)
  unfold ctf_bfdopen
  simp only [ctf_set_open_errno]
  split_ifs
  · exact h1
  · exact h2
  · have hx := quiet_ctf_bfdopen_ctfsect P hP t0 K w
      { cts_name := .literal ".ctf", cts_entsize := 1, cts_size := w.ctf_section_size,
        cts_data := w.ctf_contents } _ h2
    split
    · exact hx
    · exact Extends.emit hx (hP _ ⟨rfl, rfl⟩)
    · exact hx

theorem quiet_ctf_fdopen_raw (P : Event → Prop) (hP : ∀ ev, ev.quiet → P ev)
    (t0 : List Event) (K : Consts) (w : World) (fd : Int) (r : Run)
    (h : Extends P t0 r.trace) :
    Extends P t0 (ctf_fdopen_raw K w fd r).2.trace := by
  unfold ctf_fdopen_raw
  simp only [ctf_set_open_errno]
  by_cases h1 : (w.ctp_version : Int) > K.CTF_VERSION
  · rw [if_pos h1]; exact h
  · rw [if_neg h1]
    by_cases h2 : w.mmap_ok = false
    · rw [if_pos h2]; exact Extends.emit h (hP _ ⟨rfl, rfl⟩)
    · rw [if_neg h2]
      cases h3 : w.simple_open_ok
      · simp only [Run.emit, if_true, Bool.false_eq_true, if_false]
        repeat (first | exact h | refine Extends.emit ?_ (hP _ ⟨rfl, rfl⟩))
      · apply quiet_new_archive_internal P hP
        simp only [Run.emit, if_true, reduceCtorEq, if_false]
        repeat (first | exact h | refine Extends.emit ?_ (hP _ ⟨rfl, rfl⟩))

theorem quiet_implies_onlyFd (nfd : Int) (ev : Event) (h : ev.quiet) : ev.onlyFd nfd := by
  obtain ⟨h1, h2⟩ := h
  constructor
  · intro d hd; rw [h1] at hd; cases hd
  · intro d hd; rw [h2] at hd; cases hd

theorem onlyFd_ctf_fdopen_bfd (K : Consts) (w : World) (fd : Int) (r : Run)
    (t0 : List Event) (h : Extends (Event.onlyFd w.dup_ret) t0 r.trace) :
    Extends (Event.onlyFd w.dup_ret) t0 (ctf_fdopen_bfd K w fd r).2.trace := by
  have hq : ∀ ev : Event, ev.onlyFd w.dup_ret → ∀ {t},
      Extends (Event.onlyFd w.dup_ret) t0 t → Extends (Event.onlyFd w.dup_ret) t0 (t ++ [ev]) :=
    fun ev hev _ ht => Extends.emit ht hev
  have hdupev : (Event.dup fd w.dup_ret).onlyFd w.dup_ret :=
    quiet_implies_onlyFd _ _ ⟨rfl, rfl⟩
  have hopen : ∀ ok, (Event.bfd_fdopenr w.dup_ret ok).onlyFd w.dup_ret := by
    intro ok
    cases ok <;> simp [Event.onlyFd, Event.closesFd, Event.readerFd]
  have hfmt : ∀ ok, (Event.bfd_check_format ok).onlyFd w.dup_ret :=
    fun ok => quiet_implies_onlyFd _ _ ⟨rfl, rfl⟩
  have hclose : (Event.bfd_close_all_done w.dup_ret).onlyFd w.dup_ret := by
    simp [Event.onlyFd, Event.closesFd, Event.readerFd]
  unfold ctf_fdopen_bfd
  simp only [ctf_set_open_errno]
  split_ifs
  · exact hq _ hdupev h
  · exact hq _ (hopen _) (hq _ hdupev h)
  · exact hq _ (hfmt _) (hq _ (hopen _) (hq _ hdupev h))
  · exact hq _ (hfmt _) (hq _ (hopen _) (hq _ hdupev h))
  · have hx := quiet_ctf_bfdopen (Event.onlyFd w.dup_ret) (quiet_implies_onlyFd _) t0 K w
      (((r.emit (.dup fd w.dup_ret)).emit (.bfd_fdopenr w.dup_ret w.fdopenr_ok)).emit
        (.bfd_check_format w.check_format_ok))
      (hq _ (hfmt _) (hq _ (hopen _) (hq _ hdupev h)))
    split
    · exact hx
    · exact hq _ hclose hx
    · exact hx

theorem dup_mem_ctf_fdopen_bfd (K : Consts) (w : World) (fd : Int) (r : Run) :
    Extends (fun _ => True) (r.trace ++ [Event.dup fd w.dup_ret])
      (ctf_fdopen_bfd K w fd r).2.trace := by
  have h : Extends (fun _ => True) (r.trace ++ [Event.dup fd w.dup_ret])
      (r.emit (.dup fd w.dup_ret)).trace := Extends.refl _ _
  have hq : ∀ ev : Event, ∀ {t},
      Extends (fun _ => True) (r.trace ++ [Event.dup fd w.dup_ret]) t →
      Extends (fun _ => True) (r.trace ++ [Event.dup fd w.dup_ret]) (t ++ [ev]) :=
    fun ev _ ht => Extends.emit ht trivial
  unfold ctf_fdopen_bfd
  simp only [ctf_set_open_errno]
  split_ifs
  · exact h
  · exact hq _ h
  · exact hq _ (hq _ h)
  · exact hq _ (hq _ h)
  · have hx := quiet_ctf_bfdopen (fun _ => True) (fun _ _ => trivial)
      (r.trace ++ [Event.dup fd w.dup_ret]) K w
      (((r.emit (.dup fd w.dup_ret)).emit (.bfd_fdopenr w.dup_ret w.fdopenr_ok)).emit
        (.bfd_check_format w.check_format_ok))
      (hq _ (hq _ h))
    split
    · exact hx
    · exact hq _ hx
    · exact hx

theorem quiet_ctf_fdopen_bfd_dup_failed (K : Consts) (w : World) (fd : Int) (r : Run)
    (t0 : List Event) (h : Extends Event.quiet t0 r.trace) (hneg : w.dup_ret < 0) :
    Extends Event.quiet t0 (ctf_fdopen_bfd K w fd r).2.trace := by
  unfold ctf_fdopen_bfd
  simp only [ctf_set_open_errno, hneg, if_true]
  exact Extends.emit h ⟨rfl, rfl⟩

theorem onlyFd_ctf_fdopen (K : Consts) (w : World) (fd e : Int) :
    Extends (Event.onlyFd w.dup_ret) [] (ctf_fdopen K w fd (Run.start e)).2.trace := by
  have hP := quiet_implies_onlyFd w.dup_ret
  have h : Extends (Event.onlyFd w.dup_ret) [] (Run.start e).trace := Extends.refl _ _
  unfold ctf_fdopen
  simp only [ctf_set_open_errno]
  split_ifs
  all_goals first
    | apply quiet_ctf_fdopen_raw _ hP
    | apply onlyFd_ctf_fdopen_bfd
    | apply quiet_new_archive_internal _ hP
    | skip
  all_goals try simp only []
  all_goals repeat (first | exact h | refine Extends.emit ?_ (hP _ ⟨rfl, rfl⟩))

theorem quiet_or_dup_ctf_fdopen (K : Consts) (w : World) (fd e : Int) :
    Extends Event.quiet [] (ctf_fdopen K w fd (Run.start e)).2.trace ∨
    (0 ≤ w.dup_ret ∧ Event.dup fd w.dup_ret ∈ (ctf_fdopen K w fd (Run.start e)).2.trace) := by
  have hP : ∀ ev : Event, ev.quiet → ev.quiet := fun _ hq => hq
  have h : Extends Event.quiet [] (Run.start e).trace := Extends.refl _ _
  by_cases hneg : w.dup_ret < 0
  · left
    unfold ctf_fdopen
    simp only [ctf_set_open_errno]
    split_ifs
    all_goals first
      | apply quiet_ctf_fdopen_raw _ hP
      | apply quiet_ctf_fdopen_bfd_dup_failed _ _ _ _ _ _ hneg
      | apply quiet_new_archive_internal _ hP
      | skip
    all_goals try simp only []
    all_goals repeat (first | exact h | refine Extends.emit ?_ (hP _ ⟨rfl, rfl⟩))
  · unfold ctf_fdopen
    simp only [ctf_set_open_errno]
    split_ifs
    all_goals first
      | (right
         refine ⟨by omega, ?_⟩
         exact Extends.mem (dup_mem_ctf_fdopen_bfd K w fd _) _ (by simp))
      | left
    all_goals first
      | apply quiet_ctf_fdopen_raw _ hP
      | apply quiet_new_archive_internal _ hP
      | skip
    all_goals try simp only []
    all_goals repeat (first | exact h | refine Extends.emit ?_ (hP _ ⟨rfl, rfl⟩))

/-- C8: provided a successful `dup (fd)` returns a descriptor other than `fd`,
no call made by `ctf_fdopen` closes `fd` or hands `fd` to the object-file
reader; whatever descriptor is handed to `bfd_fdopenr` or closed is the value
`dup (fd)` returned, and that `dup` call is in the trace. -/
theorem ctf_fdopen_keeps_caller_descriptor (K : Consts) (w : World) (fd e : Int)
    (hdup : 0 ≤ w.dup_ret → w.dup_ret ≠ fd) :
    (∀ ev ∈ (ctf_fdopen K w fd (Run.start e)).2.trace, ev.closesFd ≠ some fd) ∧
    (∀ ev ∈ (ctf_fdopen K w fd (Run.start e)).2.trace, ev.readerFd ≠ some fd) ∧
    (∀ ev ∈ (ctf_fdopen K w fd (Run.start e)).2.trace, ∀ d,
      (ev.readerFd = some d ∨ ev.closesFd = some d) →
        d = w.dup_ret ∧ Event.dup fd d ∈ (ctf_fdopen K w fd (Run.start e)).2.trace) := by
  have key : ∀ ev ∈ (ctf_fdopen K w fd (Run.start e)).2.trace, ∀ d,
      (ev.readerFd = some d ∨ ev.closesFd = some d) →
        d = w.dup_ret ∧ 0 ≤ w.dup_ret ∧
        Event.dup fd w.dup_ret ∈ (ctf_fdopen K w fd (Run.start e)).2.trace := by
    intro ev hev d hd
    have h1 := (onlyFd_ctf_fdopen K w fd e).all ev hev
    have hd1 : d = w.dup_ret := by
      rcases hd with hd | hd
      · exact h1.2 d hd
      · exact h1.1 d hd
    rcases quiet_or_dup_ctf_fdopen K w fd e with hq | hq
    · have h2 := hq.all ev hev
      rcases hd with hd | hd
      · rw [h2.2] at hd; cases hd
      · rw [h2.1] at hd; cases hd
    · exact ⟨hd1, hq.1, hq.2⟩
  refine ⟨?_, ?_, ?_⟩
  · intro ev hev hc
    obtain ⟨h1, h2, _⟩ := key ev hev fd (Or.inr hc)
    exact hdup h2 h1.symm
  · intro ev hev hc
    obtain ⟨h1, h2, _⟩ := key ev hev fd (Or.inl hc)
    exact hdup h2 h1.symm
  · intro ev hev d hd
    obtain ⟨h1, _, h3⟩ := key ev hev d hd
    subst h1
    exact ⟨rfl, h3⟩

/-- Witness for C8: an ELF object without a `.ctf` section opened on
descriptor 3; the reader handle is closed, on the duplicate 4. -/
theorem ctf_fdopen_keeps_caller_descriptor_witness :
    (Event.bfd_close_all_done 4).closesFd ≠ some 3 ∧
    ((4 : Int) = worldNoCtf.dup_ret ∧
      Event.dup 3 4 ∈ (ctf_fdopen libctfConsts worldNoCtf 3 (Run.start 0)).2.trace) :=
  have h := ctf_fdopen_keeps_caller_descriptor libctfConsts worldNoCtf 3 0 (by decide)
  ⟨h.1 (Event.bfd_close_all_done 4) (by decide),
   h.2.2 (Event.bfd_close_all_done 4) (by decide) 4 (Or.inr rfl)⟩

/-- C3: every handle returned by `ctf_fdopen`, `ctf_bfdopen` or
`ctf_bfdopen_ctfsect` has exactly the payload its tag names (`ctfi_archive`
when `ctfi_is_archive`, `ctfi_file` otherwise, the other one null) and has its
symbol-table and string-table descriptors both filled or both empty. -/
theorem returned_handle_wellFormed (K : Consts) (w : World) (fd : Int)
    (ctfsect : ctf_sect_t) (r : Run) (h : ctf_archive_internal) :
    ((ctf_fdopen K w fd r).1 = Outcome.handle h → h.wellFormed) ∧
    ((ctf_bfdopen K w r).1 = Outcome.handle h → h.wellFormed) ∧
    ((ctf_bfdopen_ctfsect K w ctfsect r).1 = Outcome.handle h → h.wellFormed) := by
  refine ⟨?_, ?_, ?_⟩
  · intro heq
    have hwf := ctf_fdopen_wellFormed K w fd r
    rw [heq] at hwf
    exact hwf
  · intro heq
    have hwf := ctf_bfdopen_wellFormed K w r
    rw [heq] at hwf
    exact hwf
  · intro heq
    have hwf := ctf_bfdopen_ctfsect_wellFormed K w ctfsect r
    rw [heq] at hwf
    exact hwf

/-- Witness for C3: the three handles built for the sample ELF object. -/
theorem returned_handle_wellFormed_witness :
    handleElfFd.wellFormed ∧ handleElfBfd.wellFormed ∧ handleElfSect.wellFormed :=
  ⟨(returned_handle_wellFormed libctfConsts worldElf 3 sectElf (Run.start 0)
      handleElfFd).1 (by decide),
   (returned_handle_wellFormed libctfConsts worldElf 3 sectElf (Run.start 0)
      handleElfBfd).2.1 (by decide),
   (returned_handle_wellFormed libctfConsts worldElf 3 sectElf (Run.start 0)
      handleElfSect).2.2 (by decide)⟩

/-! ## Theorems: the in-memory sniff -/

theorem load_uint64_isSome (bytes : List Nat) (h : 8 ≤ bytes.length) :
    ∃ m, load_uint64 bytes = some m := by
  unfold load_uint64
  have h1 : ¬ bytes.length < 8 := by omega
  rw [if_neg h1]
  exact ⟨_, rfl⟩

theorem Extends.head {P : Event → Prop} {ev : Event} {t : List Event}
    (h : Extends P [ev] t) : t.head? = some ev := by
  obtain ⟨ext, h1, _⟩ := h
  rw [h1]
  rfl

theorem ctfsect_open_first_call (K : Consts) (w : World) (ctfsect : ctf_sect_t)
    (symsect strsect : Option ctf_sect_t) (e : Int) (b : Bool)
    (hb : ctfsect_is_archive K ctfsect = some b) :
    Extends (fun _ => True)
      [if b then Event.ctf_arc_bufopen w.arc_bufopen_ok else Event.ctf_bufopen w.bufopen_ok]
      (ctfsect_open K w ctfsect symsect strsect (Run.start e)).2.trace := by
  have hP : ∀ ev : Event, ev.quiet → (fun _ : Event => True) ev := fun _ _ => trivial
  unfold ctfsect_open
  rw [hb]
  cases b
  · have h0 : Extends (fun _ => True) [Event.ctf_bufopen w.bufopen_ok]
        ((Run.start e).emit (.ctf_bufopen w.bufopen_ok)).trace := Extends.refl _ _
    simp only [Bool.false_eq_true, if_false]
    split_ifs
    · exact quiet_ctfsect_err_free_sym _ hP _ K symsect strsect false _ h0
    · have hx := quiet_new_archive_internal _ hP _ w false none (some ⟨false, 0⟩) symsect
        strsect _ h0
      split
      · exact hx
      · exact quiet_ctfsect_err_free_sym _ hP _ K symsect strsect false _ hx
  · have h0 : Extends (fun _ => True) [Event.ctf_arc_bufopen w.arc_bufopen_ok]
        ((Run.start e).emit (.ctf_arc_bufopen w.arc_bufopen_ok)).trace := Extends.refl _ _
    simp only [if_true]
    split_ifs
    · exact quiet_ctfsect_err_free_sym _ hP _ K symsect strsect false _ h0
    · have hx := quiet_new_archive_internal _ hP _ w true (some ⟨0⟩) none symsect
        strsect _ h0
      split
      · exact hx
      · exact quiet_ctfsect_err_free_sym _ hP _ K symsect strsect false _ hx

/-- C9 as stated fails: a section of exactly eight bytes equal to the archive
magic passes the specification's check, and an eight-byte file with these
bytes makes `ctf_fdopen` open an archive, but `ctf_bfdopen_ctfsect` hands the
section to `ctf_bufopen` and never calls `ctf_arc_bufopen`. -/
theorem ctfsect_eight_byte_magic_is_not_archive :
    sectMagicOnly.cts_size = 8 ∧
    load_uint64 sectMagicOnly.cts_data = some libctfConsts.CTFA_MAGIC ∧
    archiveMagicSpec libctfConsts sectMagicOnly.cts_size sectMagicOnly.cts_data = true ∧
    ctfsect_is_archive libctfConsts sectMagicOnly = some false ∧
    (ctf_bfdopen_ctfsect libctfConsts worldNoSymtab sectMagicOnly (Run.start 0)).2.trace =
      [Event.bfd_section_from_elf_index 2, Event.ctf_bufopen true, Event.calloc true] ∧
    (ctf_fdopen libctfConsts worldArchiveFile8 3 (Run.start 0)).2.trace =
      [Event.fstat 3, Event.ctf_pread 3 4 0, Event.ctf_pread 3 8 0,
       Event.ctf_arc_open_internal true, Event.calloc true] := by
  decide

/-- C9, amended: on a section whose buffer holds its declared size, the first
call from the sniff of `ctf_bfdopen_ctfsect` is `ctf_arc_bufopen` exactly when
the size is greater than 8 and the first eight bytes equal `CTFA_MAGIC`, and
`ctf_bufopen` otherwise; the test agrees with the specification's check for
every size other than 8. -/
theorem ctfsect_sniff_strict (K : Consts) (w : World) (ctfsect : ctf_sect_t)
    (symsect strsect : Option ctf_sect_t) (e : Int)
    (hbuf : ctfsect.cts_size ≤ ctfsect.cts_data.length) :
    ctfsect_is_archive K ctfsect =
      some (decide (ctfsect.cts_size > 8 ∧
                    load_uint64 ctfsect.cts_data = some K.CTFA_MAGIC)) ∧
    (ctfsect_open K w ctfsect symsect strsect (Run.start e)).2.trace.head? =
      some (if ctfsect.cts_size > 8 ∧ load_uint64 ctfsect.cts_data = some K.CTFA_MAGIC
            then Event.ctf_arc_bufopen w.arc_bufopen_ok
            else Event.ctf_bufopen w.bufopen_ok) ∧
    (ctfsect.cts_size ≠ 8 →
      ctfsect_is_archive K ctfsect =
        some (archiveMagicSpec K ctfsect.cts_size ctfsect.cts_data)) := by
  have hcls : ctfsect_is_archive K ctfsect =
      some (decide (ctfsect.cts_size > 8 ∧
                    load_uint64 ctfsect.cts_data = some K.CTFA_MAGIC)) := by
    unfold ctfsect_is_archive
    by_cases hsz : ctfsect.cts_size > sizeof_uint64_t
    · have hsz8 : ctfsect.cts_size > 8 := hsz
      obtain ⟨m, hm⟩ := load_uint64_isSome ctfsect.cts_data (by omega)
      rw [if_pos hsz, hm]
      simp [hsz8]
    · have hsz8 : ¬ ctfsect.cts_size > 8 := hsz
      rw [if_neg hsz]
      simp [hsz8]
  refine ⟨hcls, ?_, ?_⟩
  · rw [(ctfsect_open_first_call K w ctfsect symsect strsect e _ hcls).head]
    by_cases hc : ctfsect.cts_size > 8 ∧ load_uint64 ctfsect.cts_data = some K.CTFA_MAGIC
    · simp [hc]
    · simp [hc]
  · intro hne
    rw [hcls]
    unfold archiveMagicSpec sizeof_uint64_t
    congr 1
    by_cases hl : load_uint64 ctfsect.cts_data = some K.CTFA_MAGIC
    · have : (ctfsect.cts_size > 8) = (ctfsect.cts_size ≥ 8) := by
        apply propext; constructor <;> intro h <;> omega
      simp [hl, this]
    · simp [hl]

/-- Witness for C9 amended: nine bytes starting with the archive magic go to
`ctf_arc_bufopen`. -/
theorem ctfsect_sniff_strict_witness :
    ctfsect_is_archive libctfConsts sectMagicPlusOne = some true ∧
    (ctfsect_open libctfConsts worldElf sectMagicPlusOne none none (Run.start 0)).2.trace.head? =
      some (Event.ctf_arc_bufopen true) ∧
    ctfsect_is_archive libctfConsts sectMagicPlusOne =
      some (archiveMagicSpec libctfConsts 9 sectMagicPlusOne.cts_data) :=
  have h := ctfsect_sniff_strict libctfConsts worldElf sectMagicPlusOne none none 0
    (by decide)
  ⟨h.1, h.2.1, h.2.2 (by decide)⟩

/-! ## A second defect on the error labels -/

/-- When the object has no symbol table and `ctf_bufopen` fails, the labels
`err_free_sym` and `err_free_str` pass the `cts_data` of the two descriptors
to `free` although neither was ever filled in. -/
theorem ctf_bfdopen_ctfsect_frees_uninitialised :
    ctf_bfdopen_ctfsect libctfConsts { worldNoSymtab with bufopen_ok := false, bufopen_err := 1007 }
        sectElf (Run.start 0) =
      (Outcome.null,
       { trace := [Event.bfd_section_from_elf_index 2, Event.ctf_bufopen false,
                   Event.free Ptr.uninit, Event.free Ptr.uninit]
         errp := 1007 }) := by
  decide

end Libctf
